import Mathlib

/-
Verification of the Aloha Editor toolbar module
(src/src/plugins/common/ui/lib/toolbar.js): tab activation predicates,
tab activate/deactivate transitions with jQuery-UI tab selection state,
selection-driven reconciliation (checkActiveTabs), and the debounced
toolbar hide on editable deactivation.

The embedding is shallow: each JavaScript function of the module is
translated to a Lean definition over explicit state.  DOM state that the
module reads or writes (handle visibility, the ui-tabs-active class on a
handle, the jQuery-UI selected-tab option) is carried as record fields.
-/

namespace AlohaToolbar

/-- An effective element at the selection.  The module treats elements
opaquely: it only ever hands them to the external structural matcher
(jQuery's .is), so a tag string is enough to make states concrete. -/
structure Elem where
  tag : String
deriving DecidableEq, Repr

/-- The declarative activateOn rule, one constructor per branch of the
typeof switch in coerceActivateOnToPredicate: a function, a boolean, a
selector string, undefined, or any other JavaScript value (the default
case of the switch). -/
inductive Rule where
  | fn (p : Option Elem → Bool)
  | bool (b : Bool)
  | str (sel : String)
  | undef
  | other

/-- coerceActivateOnToPredicate (toolbar.js lines 83-104).  The string
case models `el ? jQuery( el ).is( activateOn ) : false`: the external
matcher `matches` stands for jQuery's .is, and a missing element (the
null sentinel) yields false.  `undefined` yields the constantly-true
predicate and every unrecognised shape the constantly-false one. -/
def coerceActivateOnToPredicate (isMatch : Elem → String → Bool) :
    Rule → (Option Elem → Bool)
  | Rule.fn p => p
  | Rule.bool b => fun _ => b
  | Rule.str sel => fun el =>
      match el with
      | some e => isMatch e sel
      | none => false
  | Rule.undef => fun _ => true
  | Rule.other => fun _ => false

/-- The while loop of shouldActivateForElements (toolbar.js lines
192-198): `j` starts at the array length and is pre-decremented, so the
scan visits indices j-1, j-2, ..., 0 and short-circuits on the first
index whose entry satisfies the predicate. -/
def scanLoop (pred : Option Elem → Bool) (es : List (Option Elem)) :
    Nat → Bool
  | 0 => false
  | j + 1 => if pred (es.getD j none) then true else scanLoop pred es j

/-- shouldActivateForElements (toolbar.js lines 185-201).  The source
mutates the caller's array with `elements.push( null )` before scanning,
so the embedding returns both the scan result and the array as it is
left after the call. -/
def shouldActivateForElements (pred : Option Elem → Bool)
    (es : List (Option Elem)) : Bool × List (Option Elem) :=
  (scanLoop pred (es ++ [none]) (es ++ [none]).length, es ++ [none])

/-- A toolbar tab.  Fields mirror the object and DOM state the module
reads and writes: `index` is this.index (the position in
editable.tabs), `shouldActivate` the predicate installed by the
constructor, `activated` the this.activated flag, `handleVisible`
whether this.handle is shown, `panelVisible` whether the Tab code
itself has shown the panel (the source keeps `this.panel.show()` and
`this.panel.hide()` commented out, deferring panel display to the
widget), and `hasActiveClass` whether this tab's handle carries the
ui-tabs-active class. -/
structure Tab where
  index : Nat
  shouldActivate : Option Elem → Bool
  activated : Bool
  handleVisible : Bool
  panelVisible : Bool
  hasActiveClass : Bool

/-- The tab-widget state of one editable's toolbar container: the Tab
list (editable.tabs) together with the jQuery-UI selected-tab option of
the container, read by `this.container.tabs( 'option', 'selected' )`. -/
structure TabSet where
  tabs : List Tab
  selectedIdx : Nat

/-- The external tab widget's select operation,
`this.container.tabs( 'select', i )`: it records i as the selected
option and moves the ui-tabs-active class to the handle whose tab has
index i (removing it from every other handle). -/
def TabSet.select (ts : TabSet) (i : Nat) : TabSet :=
  { tabs := ts.tabs.map fun t => { t with hasActiveClass := t.index == i },
    selectedIdx := i }

/-- The check `this.container.find( '.ui-tabs-active' ).length == 0` of
activate: no handle in the container carries the ui-tabs-active
class. -/
def TabSet.noActiveClass (ts : TabSet) : Bool :=
  ts.tabs.all fun t => !t.hasActiveClass

/-- The effect of `this.show(); this.activated = true;` on the tab
object: the handle becomes visible and the flag is set.  The panel is
untouched (panel display is deferred to widget selection). -/
def Tab.activatedTab (t : Tab) : Tab :=
  { t with handleVisible := true, activated := true }

/-- The effect of `this.hide(); this.activated = false;` on the tab
object: the handle is hidden and the flag is cleared.  The panel is
untouched. -/
def Tab.deactivatedTab (t : Tab) : Tab :=
  { t with handleVisible := false, activated := false }

/-- The for loop of deactivate (toolbar.js lines 240-245): scan
editable.tabs from position 0 upward and return the position of the
first tab whose activated flag is true, or none when no tab is
activated. -/
def firstActivatedIdx : List Tab → Option Nat
  | [] => none
  | t :: rest =>
      if t.activated then some 0
      else (firstActivatedIdx rest).map fun k => k + 1

/-- The fallback `this.handle.removeClass( 'ui-tabs-active' )` of
deactivate: strip the ui-tabs-active class from the handle of the tab
at position p, leaving the widget's selected option untouched (the
source notes that `tabs( 'select', -1 )` does not work). -/
def TabSet.removeActiveClass (ts : TabSet) (p : Nat) : TabSet :=
  match ts.tabs[p]? with
  | none => ts
  | some t => { ts with tabs := ts.tabs.set p { t with hasActiveClass := false } }

/-- Tab.activate (toolbar.js lines 206-222), for the tab at position p.
Guarded by the rendered-handle count; then shows the handle and sets
the flag; then selects this tab when no handle carries the
ui-tabs-active class, or else when the widget's selected option equals
this tab's index. -/
def TabSet.activate (ts : TabSet) (p : Nat) : TabSet :=
  if ts.tabs.length == 0 then ts
  else
    match ts.tabs[p]? with
    | none => ts
    | some t =>
        if TabSet.noActiveClass
            { tabs := ts.tabs.set p t.activatedTab,
              selectedIdx := ts.selectedIdx } then
          TabSet.select
            { tabs := ts.tabs.set p t.activatedTab,
              selectedIdx := ts.selectedIdx } t.index
        else if ts.selectedIdx == t.index then
          TabSet.select
            { tabs := ts.tabs.set p t.activatedTab,
              selectedIdx := ts.selectedIdx } t.index
        else
          { tabs := ts.tabs.set p t.activatedTab,
            selectedIdx := ts.selectedIdx }

/-- Tab.deactivate (toolbar.js lines 227-253), for the tab at position
p.  Guarded by the rendered-handle count; then hides the handle and
clears the flag; then, if this tab's index equals the widget's selected
option, selects the first activated tab in index order, or, when none
remains, merely strips the ui-tabs-active class from this handle. -/
def TabSet.deactivate (ts : TabSet) (p : Nat) : TabSet :=
  if ts.tabs.length == 0 then ts
  else
    match ts.tabs[p]? with
    | none => ts
    | some t =>
        if t.index == ts.selectedIdx then
          match firstActivatedIdx (ts.tabs.set p t.deactivatedTab) with
          | some k =>
              TabSet.select
                { tabs := ts.tabs.set p t.deactivatedTab,
                  selectedIdx := ts.selectedIdx } k
          | none =>
              TabSet.removeActiveClass
                { tabs := ts.tabs.set p t.deactivatedTab,
                  selectedIdx := ts.selectedIdx } p
        else
          { tabs := ts.tabs.set p t.deactivatedTab,
            selectedIdx := ts.selectedIdx }

/-- Index sanity of a TabSet: the constructor sets
`this.index = editable.tabs.length` right before the tab is pushed, so
each tab's index field equals its position in the list. -/
abbrev WellIndexed (ts : TabSet) : Prop :=
  ∀ p, (hp : p < ts.tabs.length) → (ts.tabs.get ⟨p, hp⟩).index = p

/-- Widget-state sanity: a handle carries the ui-tabs-active class only
if its tab is the one the widget records as selected.  jQuery-UI keeps
the class on exactly the selected handle; the module only ever moves the
class via select or strips it from the selected handle. -/
abbrev ClassOnlyOnSelected (ts : TabSet) : Prop :=
  ∀ t ∈ ts.tabs, t.hasActiveClass = true → t.index = ts.selectedIdx

/-- Reachable-state invariant: as long as some tab is activated, some
handle carries the ui-tabs-active class (deactivate only strips the
class after finding no activated tab, and activate selects whenever no
handle has the class). -/
abbrev ActivatedHasClass (ts : TabSet) : Prop :=
  (∃ t ∈ ts.tabs, t.activated = true) → ∃ t ∈ ts.tabs, t.hasActiveClass = true

/-- A concrete tab for witness states: index i, constantly-true
predicate, activated flag and ui-tabs-active class as given. -/
def exTab (i : Nat) (act : Bool) (cls : Bool) : Tab :=
  { index := i, shouldActivate := fun _ => true, activated := act,
    handleVisible := act, panelVisible := false, hasActiveClass := cls }

/-- Witness TabSet: tabs A(activated), B(activated, selected, class on
its handle), C(not activated). -/
def exTS3 : TabSet :=
  { tabs := [exTab 0 true false, exTab 1 true true, exTab 2 false false],
    selectedIdx := 1 }

/-- Witness TabSet with a single activated, selected tab. -/
def exTS1 : TabSet :=
  { tabs := [exTab 0 true true], selectedIdx := 0 }

/-- A selection range as checkActiveTabs reads it: only the
markupEffectiveAtStart property is consulted; none models an undefined
or null property (the falsy check in the source). -/
structure RangeObj where
  markupEffectiveAtStart : Option (List Elem)

/-- The effective-element list built at the top of checkActiveTabs
(toolbar.js lines 460-468): a fresh array, filled by copying
range.markupEffectiveAtStart when the range is defined and the property
is present, otherwise left empty. -/
def effectiveElements (range : Option RangeObj) : List (Option Elem) :=
  match range with
  | none => []
  | some r =>
      match r.markupEffectiveAtStart with
      | none => []
      | some l => l.map some

/-- One editable surface with its toolbar tab state. -/
structure Editable where
  id : Nat
  ts : TabSet

/-- The Ui.toolbar singleton state: `active` is the currently active
editable (the source stores null initially and false in the
deactivated handler, both only ever tested for truthiness, so Option
covers them), `visible` whether the toolbar element is shown
(fadeIn/fadeOut), and `eventHandled` the Aloha.eventHandled flag that
hide consults. -/
structure Toolbar where
  active : Option Editable
  visible : Bool
  eventHandled : Bool

/-- One iteration of the jQuery.each loop of checkActiveTabs for the
tab at position p: shouldActivateForElements is always evaluated first
(appending a null to the shared effective array), then the tab is
activated when the result is true and the flag not yet set, or
deactivated when the result is false and the flag set. -/
def checkStep (st : TabSet × List (Option Elem)) (p : Nat) :
    TabSet × List (Option Elem) :=
  match st.1.tabs[p]? with
  | none => st
  | some t =>
      if (shouldActivateForElements t.shouldActivate st.2).1 then
        if t.activated then
          (st.1, (shouldActivateForElements t.shouldActivate st.2).2)
        else
          (st.1.activate p, (shouldActivateForElements t.shouldActivate st.2).2)
      else
        if t.activated then
          (st.1.deactivate p,
            (shouldActivateForElements t.shouldActivate st.2).2)
        else
          (st.1, (shouldActivateForElements t.shouldActivate st.2).2)

/-- checkActiveTabs (toolbar.js lines 459-483).  Builds the effective
element list from the range and, only when an editable is recorded as
active, runs the per-tab check over its tabs in declaration order,
threading the shared (mutated) effective array through the
iterations. -/
def checkActiveTabs (tb : Toolbar) (range : Option RangeObj) : Toolbar :=
  let effective := effectiveElements range
  match tb.active with
  | none => tb
  | some ed =>
      { tb with active := some { ed with ts :=
          ((List.range ed.ts.tabs.length).foldl checkStep
            (ed.ts, effective)).1 } }

/-- Ui.toolbar.show (toolbar.js lines 383-395): attach this editable's
controls, fade the toolbar element in, and record the editable as the
process-wide active one. -/
def Toolbar.showFor (tb : Toolbar) (e : Editable) : Toolbar :=
  { tb with visible := true, active := some e }

/-- Ui.toolbar.hide (toolbar.js lines 397-404): when no toolbar click
flagged the event as handled, clear the active editable and fade the
toolbar element out. -/
def Toolbar.hideFor (tb : Toolbar) (_e : Editable) : Toolbar :=
  if tb.eventHandled then tb
  else { tb with active := none, visible := false }

/-- The grace window of the editable-deactivated handler:
`setTimeout( ..., 10 )`. -/
def graceDelay : Nat := 10

/-- The timed event system around the handlers registered by
subscribeEventHandlers (toolbar.js lines 410-431): the toolbar
singleton, the current time, and the pending setTimeout callbacks, each
recorded as its fire time with the editable captured by the closure. -/
structure Sys where
  tb : Toolbar
  now : Nat
  timers : List (Nat × Editable)

/-- The events delivered to the module: the three aloha notifications
plus the passage of time. -/
inductive Ev where
  | selectionChanged (range : Option RangeObj)
  | editableActivated (e : Editable)
  | editableDeactivated (e : Editable)
  | elapse (d : Nat)

/-- The body of the scheduled callback (toolbar.js lines 426-430): at
fire time it re-reads toolbar.active and hides only when it is still
unset. -/
def fireTimer (tb : Toolbar) (e : Editable) : Toolbar :=
  if tb.active.isNone then tb.hideFor e else tb

/-- Run the timers that have come due (fire time at or before the
current time) in scheduling order, and drop them from the pending
list. -/
def fireDue (s : Sys) : Sys :=
  { s with
    tb := (s.timers.filter fun tm => tm.1 ≤ s.now).foldl
        (fun tb tm => fireTimer tb tm.2) s.tb,
    timers := s.timers.filter fun tm => ¬ tm.1 ≤ s.now }

/-- One event step.  The editable-deactivated handler first unsets
toolbar.active (the source assigns false) and then schedules the
guarded hide after the grace window; elapsing time fires due timers. -/
def step (s : Sys) : Ev → Sys
  | Ev.selectionChanged range =>
      { s with tb := checkActiveTabs s.tb range }
  | Ev.editableActivated e =>
      { s with tb := s.tb.showFor e }
  | Ev.editableDeactivated e =>
      { s with
        tb := { s.tb with active := none },
        timers := s.timers ++ [(s.now + graceDelay, e)] }
  | Ev.elapse d => fireDue { s with now := s.now + d }

/-- Run a sequence of events from a state. -/
def run (s : Sys) (evs : List Ev) : Sys :=
  evs.foldl step s

/-- Witness toolbar with no active editable. -/
def exToolbarNoActive : Toolbar :=
  { active := none, visible := true, eventHandled := false }

/-- Witness editables and system state for the debounce claim. -/
def exEditable1 : Editable := { id := 1, ts := exTS1 }

def exEditable2 : Editable := { id := 2, ts := exTS3 }

def exSys : Sys :=
  { tb := { active := some exEditable1, visible := true,
            eventHandled := false },
    now := 0, timers := [] }

theorem scanLoop_take (pred : Option Elem → Bool) (es : List (Option Elem)) :
    ∀ n, n ≤ es.length → scanLoop pred es n = (es.take n).any pred := by
  intro n
  induction n with
  | zero => intro _; simp [scanLoop]
  | succ m ih =>
    intro h
    have hm : m < es.length := Nat.lt_of_succ_le h
    have hget : es.getD m none = es[m] := by
      simp [List.getD_eq_getElem?_getD, List.getElem?_eq_getElem hm]
    have htake : es.take (m + 1) = es.take m ++ [es[m]] := by
      rw [← List.take_concat_get es m hm, List.concat_eq_append]
    rw [scanLoop, ih (Nat.le_of_lt hm), hget, htake, List.any_append]
    cases hp : pred es[m] <;> simp [hp]

theorem scanLoop_length (pred : Option Elem → Bool)
    (es : List (Option Elem)) : scanLoop pred es es.length = es.any pred := by
  rw [scanLoop_take pred es es.length (Nat.le_refl _), List.take_length]

theorem shouldActivate_fst (pred : Option Elem → Bool)
    (es : List (Option Elem)) :
    (shouldActivateForElements pred es).1 = (es.any pred || pred none) := by
  have h : (shouldActivateForElements pred es).1
      = scanLoop pred (es ++ [none]) (es ++ [none]).length := rfl
  rw [h, scanLoop_length, List.any_append]
  simp

theorem shouldActivate_snd (pred : Option Elem → Bool)
    (es : List (Option Elem)) :
    (shouldActivateForElements pred es).2 = es ++ [none] := rfl

/-- C1: shouldActivateForElements appends one null sentinel, scans the
augmented list from its end toward its start short-circuiting on the
first match (this is the definition of scanLoop, entered at the
augmented length), and the result is true iff the predicate holds for
some element of the original list or for the null sentinel. -/
theorem shouldActivateForElements_true_iff (pred : Option Elem → Bool)
    (es : List (Option Elem)) :
    (shouldActivateForElements pred es).1
      = ((es ++ [none]).any pred)
    ∧ ((shouldActivateForElements pred es).1 = true
        ↔ (∃ x ∈ es, pred x = true) ∨ pred none = true) := by
  constructor
  · rw [shouldActivate_fst]; simp
  · rw [shouldActivate_fst]
    simp [List.any_eq_true]

/-- C2: predicate construction from a rule value is total (it is a Lean
function, defined on every Rule, and raises nothing) and behaves per
rule shape: a function rule is used verbatim, a boolean rule gives that
constant, a string rule gives false on the absent descriptor and the
matcher's verdict otherwise, an undefined rule gives constantly true,
and any other shape gives constantly false. -/
theorem coerceActivateOnToPredicate_cases (isMatch : Elem → String → Bool) :
    (∀ p, coerceActivateOnToPredicate isMatch (Rule.fn p) = p)
    ∧ (∀ b el, coerceActivateOnToPredicate isMatch (Rule.bool b) el = b)
    ∧ (∀ sel, coerceActivateOnToPredicate isMatch (Rule.str sel) none = false)
    ∧ (∀ sel e, coerceActivateOnToPredicate isMatch (Rule.str sel) (some e)
        = isMatch e sel)
    ∧ (∀ el, coerceActivateOnToPredicate isMatch Rule.undef el = true)
    ∧ (∀ el, coerceActivateOnToPredicate isMatch Rule.other el = false) :=
  ⟨fun _ => rfl, fun _ _ => rfl, fun _ => rfl, fun _ _ => rfl,
    fun _ => rfl, fun _ => rfl⟩

/-- C7: for every element list, including the empty one, a tab whose
rule is undefined activates (the constantly-true predicate accepts the
sentinel), and a tab whose rule is the boolean false never activates. -/
theorem rule_undef_always_rule_false_never (isMatch : Elem → String → Bool)
    (es : List (Option Elem)) :
    (shouldActivateForElements
        (coerceActivateOnToPredicate isMatch Rule.undef) es).1 = true
    ∧ (shouldActivateForElements
        (coerceActivateOnToPredicate isMatch (Rule.bool false)) es).1
        = false := by
  constructor
  · rw [shouldActivate_fst]; simp [coerceActivateOnToPredicate]
  · rw [shouldActivate_fst]
    simp [coerceActivateOnToPredicate]

theorem all_set_congr (l : List Tab) (p : Nat) (t t1 : Tab)
    (f : Tab → Bool) (ht : l[p]? = some t) (hf : f t1 = f t) :
    (l.set p t1).all f = l.all f := by
  induction l generalizing p with
  | nil => simp at ht
  | cons a as ih =>
    cases p with
    | zero =>
      simp only [List.getElem?_cons_zero, Option.some.injEq] at ht
      subst ht
      simp [hf]
    | succ m =>
      simp only [List.getElem?_cons_succ] at ht
      simp [List.set_cons_succ, ih m ht]

theorem wellIndexed_index (ts : TabSet) (hW : WellIndexed ts) (p : Nat)
    (t : Tab) (ht : ts.tabs[p]? = some t) : t.index = p := by
  rcases List.getElem?_eq_some.1 ht with ⟨hp, hEq⟩
  have h2 := hW p hp
  rw [List.get_eq_getElem] at h2
  rw [hEq] at h2
  exact h2

theorem wellIndexed_set (ts : TabSet) (p : Nat) (t t1 : Tab)
    (hW : WellIndexed ts) (ht : ts.tabs[p]? = some t)
    (hidx : t1.index = t.index) :
    ∀ (q : Nat) (u : Tab), (ts.tabs.set p t1)[q]? = some u → u.index = q := by
  intro q u hu
  by_cases hqp : p = q
  · subst hqp
    rcases List.getElem?_eq_some.1 ht with ⟨hp, _⟩
    rw [List.getElem?_set_self (by simpa using hp), Option.some.injEq] at hu
    subst hu
    rw [hidx]
    exact wellIndexed_index ts hW p t ht
  · rw [List.getElem?_set_ne hqp] at hu
    exact wellIndexed_index ts hW q u hu

theorem firstActivatedIdx_eq_some (l : List Tab) (k : Nat) (tk : Tab)
    (hk : l[k]? = some tk) (hact : tk.activated = true)
    (hmin : ∀ j, j < k → ∀ u, l[j]? = some u → u.activated = false) :
    firstActivatedIdx l = some k := by
  induction l generalizing k with
  | nil => simp at hk
  | cons a as ih =>
    cases k with
    | zero =>
      simp only [List.getElem?_cons_zero, Option.some.injEq] at hk
      subst hk
      simp [firstActivatedIdx, hact]
    | succ m =>
      have ha : a.activated = false :=
        hmin 0 (Nat.succ_pos m) a (by simp)
      have hm2 : ∀ j, j < m → ∀ u, as[j]? = some u → u.activated = false :=
        fun j hj u hu =>
          hmin (j + 1) (Nat.succ_lt_succ hj) u (by simpa using hu)
      have h2 := ih m (by simpa using hk) hm2
      simp [firstActivatedIdx, ha, h2]

theorem firstActivatedIdx_eq_none (l : List Tab)
    (h : ∀ u ∈ l, u.activated = false) : firstActivatedIdx l = none := by
  induction l with
  | nil => rfl
  | cons a as ih =>
    have ha := h a (by simp)
    have h2 := ih fun u hu => h u (by simp [hu])
    simp [firstActivatedIdx, ha, h2]

theorem nat_beq_false (a b : Nat) (h : a ≠ b) : (a == b) = false := by
  simpa using h

theorem length_ne_zero_beq (n : Nat) (h : 0 < n) : (n == 0) = false :=
  nat_beq_false n 0 (by omega)

/-- C3: when the deactivated tab is the one the widget records as
selected and some other tab remains activated, deactivate reassigns the
selection to the first tab in index order whose activated flag is true
after the deactivation: the widget's selected option becomes that tab's
position and the ui-tabs-active class lands on its handle.  The witness
instantiates the spec's example A(activated), B(activated, selected),
C(not activated): deactivating B selects A, never C. -/
theorem deactivate_selects_first_activated (ts : TabSet) (p k : Nat)
    (t tk : Tab) (hW : WellIndexed ts) (ht : ts.tabs[p]? = some t)
    (hsel : ts.selectedIdx = p)
    (hk : (ts.tabs.set p t.deactivatedTab)[k]? = some tk)
    (hact : tk.activated = true)
    (hmin : ∀ j, j < k → ∀ u,
        (ts.tabs.set p t.deactivatedTab)[j]? = some u →
        u.activated = false) :
    (ts.deactivate p).selectedIdx = k
    ∧ ((ts.deactivate p).tabs[k]?.map Tab.hasActiveClass) = some true := by
  have hp : p < ts.tabs.length := (List.getElem?_eq_some.1 ht).1
  have hne : (ts.tabs.length == 0) = false :=
    length_ne_zero_beq _ (Nat.lt_of_le_of_lt (Nat.zero_le p) hp)
  have hidx : t.index = p := wellIndexed_index ts hW p t ht
  have hfirst : firstActivatedIdx (ts.tabs.set p t.deactivatedTab) = some k :=
    firstActivatedIdx_eq_some _ k tk hk hact hmin
  have htk : tk.index = k :=
    wellIndexed_set ts p t t.deactivatedTab hW ht rfl k tk hk
  have hguard : (t.index == ts.selectedIdx) = true := by
    simp [hidx, hsel]
  simp only [TabSet.deactivate, hne, Bool.false_eq_true, if_false, ht,
    hguard, if_true, hfirst, TabSet.select]
  constructor
  · trivial
  · rw [List.getElem?_map, hk]
    simp [htk]

/-- C4: deactivating the selected tab when afterwards no tab remains
activated clears the selection in the only sense the widget state
offers (and the module itself consults in activate): after the call no
handle carries the ui-tabs-active class.  The widget's stale selected
option is not rewritten, which is exactly the source's fallback of
merely stripping the active styling. -/
theorem deactivate_last_clears_selection (ts : TabSet) (p : Nat) (t : Tab)
    (hW : WellIndexed ts) (hC : ClassOnlyOnSelected ts)
    (ht : ts.tabs[p]? = some t) (hsel : ts.selectedIdx = p)
    (hnone : ∀ q u, q ≠ p → ts.tabs[q]? = some u → u.activated = false) :
    ∀ u ∈ (ts.deactivate p).tabs, u.hasActiveClass = false := by
  have hp : p < ts.tabs.length := (List.getElem?_eq_some.1 ht).1
  have hne : (ts.tabs.length == 0) = false :=
    length_ne_zero_beq _ (Nat.lt_of_le_of_lt (Nat.zero_le p) hp)
  have hidx : t.index = p := wellIndexed_index ts hW p t ht
  have hguard : (t.index == ts.selectedIdx) = true := by
    simp [hidx, hsel]
  have hall : ∀ u ∈ ts.tabs.set p t.deactivatedTab, u.activated = false := by
    intro u hu
    rcases List.mem_iff_getElem?.1 hu with ⟨q, hq⟩
    by_cases hqp : p = q
    · subst hqp
      rw [List.getElem?_set_self (by simpa using hp),
        Option.some.injEq] at hq
      subst hq
      rfl
    · rw [List.getElem?_set_ne hqp] at hq
      exact hnone q u (fun h2 => hqp h2.symm) hq
  have hfirst : firstActivatedIdx (ts.tabs.set p t.deactivatedTab) = none :=
    firstActivatedIdx_eq_none _ hall
  simp only [TabSet.deactivate, hne, Bool.false_eq_true, if_false, ht,
    hguard, if_true, hfirst, TabSet.removeActiveClass,
    List.getElem?_set_self (by simpa using hp)]
  intro u hu
  rcases List.mem_iff_getElem?.1 hu with ⟨q, hq⟩
  by_cases hqp : p = q
  · subst hqp
    rw [List.getElem?_set_self (by simp [hp]), Option.some.injEq] at hq
    subst hq
    rfl
  · rw [List.getElem?_set_ne hqp, List.getElem?_set_ne hqp] at hq
    have hcls := hC u (List.getElem?_mem hq)
    have huidx : u.index = q := wellIndexed_index ts hW q u hq
    by_cases hc : u.hasActiveClass = true
    · exact absurd (huidx ▸ hcls hc) (by rw [hsel]; exact fun h2 => hqp h2.symm)
    · simpa using hc

theorem activate_eq_noclass (ts : TabSet) (p : Nat) (t : Tab)
    (ht : ts.tabs[p]? = some t) (hnc : ts.noActiveClass = true) :
    ts.activate p = TabSet.select
      { tabs := ts.tabs.set p t.activatedTab, selectedIdx := ts.selectedIdx }
      t.index := by
  have hp : p < ts.tabs.length := (List.getElem?_eq_some.1 ht).1
  have hne : (ts.tabs.length == 0) = false :=
    length_ne_zero_beq _ (Nat.lt_of_le_of_lt (Nat.zero_le p) hp)
  have hcls : TabSet.noActiveClass
      { tabs := ts.tabs.set p t.activatedTab, selectedIdx := ts.selectedIdx }
      = ts.noActiveClass :=
    all_set_congr ts.tabs p t t.activatedTab _ ht rfl
  simp only [TabSet.activate, hne, Bool.false_eq_true, if_false, ht]
  rw [hcls, hnc]
  simp

theorem activate_eq_selected (ts : TabSet) (p : Nat) (t : Tab)
    (ht : ts.tabs[p]? = some t) (hnc : ts.noActiveClass = false)
    (hsel : (ts.selectedIdx == t.index) = true) :
    ts.activate p = TabSet.select
      { tabs := ts.tabs.set p t.activatedTab, selectedIdx := ts.selectedIdx }
      t.index := by
  have hp : p < ts.tabs.length := (List.getElem?_eq_some.1 ht).1
  have hne : (ts.tabs.length == 0) = false :=
    length_ne_zero_beq _ (Nat.lt_of_le_of_lt (Nat.zero_le p) hp)
  have hcls : TabSet.noActiveClass
      { tabs := ts.tabs.set p t.activatedTab, selectedIdx := ts.selectedIdx }
      = ts.noActiveClass :=
    all_set_congr ts.tabs p t t.activatedTab _ ht rfl
  simp only [TabSet.activate, hne, Bool.false_eq_true, if_false, ht]
  rw [hcls, hnc, hsel]
  simp

theorem activate_eq_other (ts : TabSet) (p : Nat) (t : Tab)
    (ht : ts.tabs[p]? = some t) (hnc : ts.noActiveClass = false)
    (hsel : (ts.selectedIdx == t.index) = false) :
    ts.activate p =
      { tabs := ts.tabs.set p t.activatedTab, selectedIdx := ts.selectedIdx } := by
  have hp : p < ts.tabs.length := (List.getElem?_eq_some.1 ht).1
  have hne : (ts.tabs.length == 0) = false :=
    length_ne_zero_beq _ (Nat.lt_of_le_of_lt (Nat.zero_le p) hp)
  have hcls : TabSet.noActiveClass
      { tabs := ts.tabs.set p t.activatedTab, selectedIdx := ts.selectedIdx }
      = ts.noActiveClass :=
    all_set_congr ts.tabs p t t.activatedTab _ ht rfl
  simp only [TabSet.activate, hne, Bool.false_eq_true, if_false, ht]
  rw [hcls, hnc, hsel]
  simp

/-- C5: activate on any tab of a rendered TabSet sets the activated
flag and shows the handle; it selects the tab (widget option set to its
position and the ui-tabs-active class on its handle) exactly when no
handle carried the ui-tabs-active class beforehand or the widget's
recorded selected option already equalled this tab's index; and it
never touches any tab's own panel visibility (panel display is left to
widget selection). -/
theorem activate_spec (ts : TabSet) (p : Nat) (t : Tab)
    (hW : WellIndexed ts) (ht : ts.tabs[p]? = some t) :
    ((ts.activate p).tabs[p]?.map fun u => (u.activated, u.handleVisible))
        = some (true, true)
    ∧ (((ts.activate p).selectedIdx = p
        ∧ ((ts.activate p).tabs[p]?.map Tab.hasActiveClass) = some true)
      ↔ (ts.noActiveClass = true ∨ ts.selectedIdx = p))
    ∧ (∀ q : Nat, ((ts.activate p).tabs[q]?.map Tab.panelVisible)
        = (ts.tabs[q]?.map Tab.panelVisible)) := by
  have hp : p < ts.tabs.length := (List.getElem?_eq_some.1 ht).1
  have hidx : t.index = p := wellIndexed_index ts hW p t ht
  have hset : (ts.tabs.set p t.activatedTab)[p]? = some t.activatedTab :=
    List.getElem?_set_self (by simpa using hp)
  have hpanel : ∀ q : Nat,
      ((ts.tabs.set p t.activatedTab)[q]?.map Tab.panelVisible)
        = (ts.tabs[q]?.map Tab.panelVisible) := by
    intro q
    by_cases hqp : p = q
    · subst hqp
      rw [hset, ht]
      rfl
    · rw [List.getElem?_set_ne hqp]
  by_cases h1 : ts.noActiveClass = true
  · rw [activate_eq_noclass ts p t ht h1]
    simp only [TabSet.select]
    refine ⟨?_, ?_, ?_⟩
    · rw [List.getElem?_map, hset]
      rfl
    · constructor
      · intro _
        exact Or.inl h1
      · intro _
        refine ⟨hidx, ?_⟩
        rw [List.getElem?_map, hset]
        simp [Tab.activatedTab]
    · intro q
      rw [List.getElem?_map]
      rw [← hpanel q]
      cases hq : (ts.tabs.set p t.activatedTab)[q]? <;> rfl
  · have hnc : ts.noActiveClass = false := by
      cases hb : ts.noActiveClass with
      | false => rfl
      | true => exact absurd hb h1
    by_cases h2 : ts.selectedIdx = p
    · have hsel : (ts.selectedIdx == t.index) = true := by
        rw [hidx, h2]
        simp
      rw [activate_eq_selected ts p t ht hnc hsel]
      simp only [TabSet.select]
      refine ⟨?_, ?_, ?_⟩
      · rw [List.getElem?_map, hset]
        rfl
      · constructor
        · intro _
          exact Or.inr h2
        · intro _
          refine ⟨hidx, ?_⟩
          rw [List.getElem?_map, hset]
          simp [Tab.activatedTab]
      · intro q
        rw [List.getElem?_map]
        rw [← hpanel q]
        cases hq : (ts.tabs.set p t.activatedTab)[q]? <;> rfl
    · have hsel : (ts.selectedIdx == t.index) = false := by
        rw [hidx]
        exact nat_beq_false _ _ h2
      rw [activate_eq_other ts p t ht hnc hsel]
      refine ⟨?_, ?_, ?_⟩
      · rw [hset]
        rfl
      · constructor
        · intro hcontra
          exact absurd hcontra.1 h2
        · intro hcontra
          rcases hcontra with hcontra | hcontra
          · exact absurd hcontra h1
          · exact absurd hcontra h2
      · exact hpanel

/-- C6: activate is idempotent on a well-formed state: applied to a tab
whose activated flag is already true, it leaves the flag true and
leaves the widget's selected-tab option unchanged.  WellIndexed and
ActivatedHasClass are the reachable-state invariants: a tab is
activated only in states where some handle carries the ui-tabs-active
class, so the select-because-nothing-is-selected branch cannot fire,
and the remaining branches either re-select the already recorded index
or leave the widget untouched. -/
theorem activate_idempotent (ts : TabSet) (p : Nat) (t : Tab)
    (hW : WellIndexed ts) (hA : ActivatedHasClass ts)
    (ht : ts.tabs[p]? = some t) (hact : t.activated = true) :
    (ts.activate p).selectedIdx = ts.selectedIdx
    ∧ ((ts.activate p).tabs[p]?.map Tab.activated) = some true := by
  have hp : p < ts.tabs.length := (List.getElem?_eq_some.1 ht).1
  have hidx : t.index = p := wellIndexed_index ts hW p t ht
  have hset : (ts.tabs.set p t.activatedTab)[p]? = some t.activatedTab :=
    List.getElem?_set_self (by simpa using hp)
  have hsome : ∃ u ∈ ts.tabs, u.hasActiveClass = true :=
    hA ⟨t, List.getElem?_mem ht, hact⟩
  have hnc : ts.noActiveClass = false := by
    rcases hsome with ⟨u, hu, hcu⟩
    cases h3 : ts.noActiveClass with
    | false => rfl
    | true =>
      simp only [TabSet.noActiveClass] at h3
      have h4 := List.all_eq_true.1 h3 u hu
      rw [hcu] at h4
      simp at h4
  by_cases h2 : ts.selectedIdx = p
  · have hsel : (ts.selectedIdx == t.index) = true := by
      rw [hidx, h2]
      simp
    rw [activate_eq_selected ts p t ht hnc hsel]
    constructor
    · simp [TabSet.select, hidx, h2]
    · simp only [TabSet.select]
      rw [List.getElem?_map, hset]
      rfl
  · have hsel : (ts.selectedIdx == t.index) = false := by
      rw [hidx]
      exact nat_beq_false _ _ h2
    rw [activate_eq_other ts p t ht hnc hsel]
    constructor
    · rfl
    · rw [hset]
      rfl

theorem length_removeActiveClass (ts : TabSet) (p : Nat) :
    (ts.removeActiveClass p).tabs.length = ts.tabs.length := by
  unfold TabSet.removeActiveClass
  split
  · rfl
  · simp

theorem length_activate (ts : TabSet) (p : Nat) :
    (ts.activate p).tabs.length = ts.tabs.length := by
  unfold TabSet.activate
  split
  · rfl
  · split
    · rfl
    · split
      · simp [TabSet.select]
      · split
        · simp [TabSet.select]
        · simp

theorem length_deactivate (ts : TabSet) (p : Nat) :
    (ts.deactivate p).tabs.length = ts.tabs.length := by
  unfold TabSet.deactivate
  split
  · rfl
  · split
    · rfl
    · split
      · split
        · simp [TabSet.select]
        · rw [length_removeActiveClass]
          simp
      · simp

theorem length_checkStep (st : TabSet × List (Option Elem)) (p : Nat) :
    (checkStep st p).1.tabs.length = st.1.tabs.length := by
  unfold checkStep
  split
  · rfl
  · split
    · split
      · rfl
      · simp [length_activate]
    · split
      · simp [length_deactivate]
      · rfl

theorem snd_checkStep (st : TabSet × List (Option Elem)) (p : Nat) (t : Tab)
    (ht : st.1.tabs[p]? = some t) :
    (checkStep st p).2 = st.2 ++ [none] := by
  unfold checkStep
  simp only [ht]
  split
  · split
    · rfl
    · rfl
  · split
    · rfl
    · rfl

theorem length_fold_checkStep (ts : TabSet) (es : List (Option Elem)) :
    ∀ k, ((List.range k).foldl checkStep (ts, es)).1.tabs.length
      = ts.tabs.length := by
  intro k
  induction k with
  | zero => rfl
  | succ m ih =>
    rw [List.range_succ, List.foldl_append]
    simp only [List.foldl_cons, List.foldl_nil]
    rw [length_checkStep]
    exact ih

theorem snd_fold_checkStep (ts : TabSet) (es : List (Option Elem)) :
    ∀ k, k ≤ ts.tabs.length →
      ((List.range k).foldl checkStep (ts, es)).2
        = es ++ List.replicate k (none : Option Elem) := by
  intro k
  induction k with
  | zero => intro _; simp
  | succ m ih =>
    intro h
    rw [List.range_succ, List.foldl_append]
    simp only [List.foldl_cons, List.foldl_nil]
    have hm : m < ((List.range m).foldl checkStep (ts, es)).1.tabs.length := by
      rw [length_fold_checkStep ts es m]
      omega
    obtain ⟨t, ht⟩ : ∃ t,
        ((List.range m).foldl checkStep (ts, es)).1.tabs[m]? = some t :=
      ⟨_, List.getElem?_eq_getElem hm⟩
    rw [snd_checkStep _ m t ht, ih (by omega), List.replicate_succ',
      List.append_assoc]

/-- C8: checkActiveTabs with no active editable context is a no-op: the
toolbar state, and with it every tab and each tab's activated flag, is
returned unchanged. -/
theorem checkActiveTabs_no_active_noop (tb : Toolbar)
    (range : Option RangeObj) (h : tb.active = none) :
    checkActiveTabs tb range = tb := by
  simp [checkActiveTabs, h]

theorem checkActiveTabs_no_active_noop_witness :
    checkActiveTabs exToolbarNoActive none = exToolbarNoActive :=
  checkActiveTabs_no_active_noop exToolbarNoActive none rfl

/-- C9: after an editable-deactivated event the hide is scheduled, not
immediate.  With no pending timers and the event-handled flag clear:
elapsing less than the 10-unit grace window leaves the toolbar
visibility untouched; an editable activation inside the window claims
the active slot, so the timer firing afterwards re-reads it and leaves
the toolbar shown (the pending hide is cancelled); and with no
intervening activation, once the window has elapsed the fired callback
hides the toolbar. -/
theorem deactivation_debounce (s : Sys) (e e2 : Editable)
    (hT : s.timers = []) (hE : s.tb.eventHandled = false) :
    (∀ d, d < graceDelay →
      (run s [Ev.editableDeactivated e, Ev.elapse d]).tb.visible
        = s.tb.visible)
    ∧ (∀ d, (run s [Ev.editableDeactivated e, Ev.editableActivated e2,
        Ev.elapse d]).tb.visible = true)
    ∧ (∀ d, graceDelay ≤ d →
      (run s [Ev.editableDeactivated e, Ev.elapse d]).tb.visible
        = false) := by
  refine ⟨?_, ?_, ?_⟩
  · intro d hd
    have hle : ¬ (s.now + graceDelay ≤ s.now + d) := by
      simp [graceDelay] at hd ⊢
      omega
    simp [run, step, fireDue, hT, hle]
  · intro d
    by_cases hle : s.now + graceDelay ≤ s.now + d
    · simp [run, step, fireDue, hT, hle, fireTimer, Toolbar.showFor]
    · simp [run, step, fireDue, hT, hle, Toolbar.showFor]
  · intro d hd
    have hle : s.now + graceDelay ≤ s.now + d := by omega
    simp [run, step, fireDue, hT, hle, fireTimer, Toolbar.hideFor, hE]

theorem deactivation_debounce_witness :
    (run exSys [Ev.editableDeactivated exEditable1,
        Ev.elapse 5]).tb.visible = true
    ∧ (run exSys [Ev.editableDeactivated exEditable1,
        Ev.editableActivated exEditable2, Ev.elapse 20]).tb.visible = true
    ∧ (run exSys [Ev.editableDeactivated exEditable1,
        Ev.elapse 20]).tb.visible = false := by
  have h := deactivation_debounce exSys exEditable1 exEditable2 rfl rfl
  exact ⟨(h.1 5 (by decide)).trans rfl, h.2.1 20, h.2.2 20 (by decide)⟩

/-- C10: shouldActivateForElements mutates the caller's array, leaving
it equal to the input with one null appended; and within one
checkActiveTabs dispatch the same array is threaded through every tab,
so after k iterations it carries k trailing nulls appended to the
initial effective list.  Hence the tab at zero-based position k
receives the array with k nulls already appended by the earlier tabs,
and a dispatch over n tabs leaves n trailing nulls. -/
theorem shouldActivateForElements_mutation (ts : TabSet)
    (es : List (Option Elem)) :
    (∀ (pred : Option Elem → Bool) (l : List (Option Elem)),
      (shouldActivateForElements pred l).2 = l ++ [none])
    ∧ (∀ k, k ≤ ts.tabs.length →
      ((List.range k).foldl checkStep (ts, es)).2
        = es ++ List.replicate k (none : Option Elem)) :=
  ⟨fun pred l => shouldActivate_snd pred l, snd_fold_checkStep ts es⟩

theorem shouldActivateForElements_mutation_witness :
    ((List.range 3).foldl checkStep
        (exTS3, ([] : List (Option Elem)))).2
      = [] ++ List.replicate 3 (none : Option Elem) :=
  (shouldActivateForElements_mutation exTS3 []).2 3 (by decide)

theorem deactivate_selects_first_activated_witness :
    (exTS3.deactivate 1).selectedIdx = 0
    ∧ ((exTS3.deactivate 1).tabs[0]?.map Tab.hasActiveClass) = some true :=
  deactivate_selects_first_activated exTS3 1 0 (exTab 1 true true)
    (exTab 0 true false) (by decide) rfl rfl rfl rfl
    (fun j hj => absurd hj (Nat.not_lt_zero j))

theorem deactivate_last_clears_selection_witness :
    ((exTS1.deactivate 0).tabs.all fun u => !u.hasActiveClass) = true := by
  have h := deactivate_last_clears_selection exTS1 0 (exTab 0 true true)
    (by decide) (by decide) rfl rfl
    (by
      intro q u hq hu
      cases q with
      | zero => exact absurd rfl hq
      | succ m => simp [exTS1] at hu)
  rw [List.all_eq_true]
  intro u hu
  simp [h u hu]

theorem activate_spec_witness :
    ((exTS3.activate 2).tabs[2]?.map fun u => (u.activated, u.handleVisible))
        = some (true, true)
    ∧ (((exTS3.activate 2).selectedIdx = 2
        ∧ ((exTS3.activate 2).tabs[2]?.map Tab.hasActiveClass) = some true)
      ↔ (exTS3.noActiveClass = true ∨ exTS3.selectedIdx = 2))
    ∧ (∀ q : Nat, ((exTS3.activate 2).tabs[q]?.map Tab.panelVisible)
        = (exTS3.tabs[q]?.map Tab.panelVisible)) :=
  activate_spec exTS3 2 (exTab 2 false false) (by decide) rfl

theorem activate_idempotent_witness :
    (exTS3.activate 1).selectedIdx = exTS3.selectedIdx
    ∧ ((exTS3.activate 1).tabs[1]?.map Tab.activated) = some true :=
  activate_idempotent exTS3 1 (exTab 1 true true) (by decide) (by decide)
    rfl rfl

end AlohaToolbar
